import Mathlib

/-!
Verification development for the FitM state-graph orchestrator
(`src/src/lib.rs`).  The Rust source is shallowly embedded below:

* machine integers (`u32` generation counters) are modelled as `Nat`
  (the counters only ever grow by `+ 1`; a Rust debug build would panic
  long before the `2^32` wrap could make the two semantics differ on a
  reachable input);
* filesystem state is an explicit record of directory paths and
  file-path/content pairs (paths are component lists, mirroring the
  strings built by `format!` in the source);
* fallible `std::fs` calls return `Except String` whose `error` case is
  the panic message used by the corresponding `expect`/`unwrap`;
* the external collaborator processes (`afl-qemu-trace`, `restore.sh`,
  `afl-fuzz`, `afl-showmap`, and the `mv`/`cp`/`rm` shell commands) are
  recorded in an effect trace; the shell helpers also get filesystem
  semantics because the orchestrator's later control flow reads the
  directories they produce.
-/

deriving instance DecidableEq for Except

namespace FitM

/-- Mirrors `next_state_path` (src/src/lib.rs lines 350-357): the Rust
tuple field `.0` is the first Lean component, `.1` the second.  When the
flag is set the FIRST component is incremented, otherwise the second. -/
def next_state_path (state_path : Nat × Nat) (cur_is_server : Bool) : Nat × Nat :=
  if cur_is_server then (state_path.1 + 1, state_path.2) else (state_path.1, state_path.2 + 1)

/-- Mirrors the directory-name rendering `format!("fitm-c{}s{}", t.0, t.1)`
used at src/src/lib.rs line 322 and in the hard-coded root names
`fitm-c1s0` / `fitm-c0s1`: the first tuple component is printed after
`c`, the second after `s`. -/
def renderId (p : Nat × Nat) : String :=
  "fitm-c" ++ toString p.1 ++ "s" ++ toString p.2

/-- The client generation counter of a state id: the component printed
after `c` by `renderId`, i.e. the first tuple component. -/
def clientGeneration (p : Nat × Nat) : Nat := p.1

/-- The server generation counter of a state id: the component printed
after `s` by `renderId`, i.e. the second tuple component. -/
def serverGeneration (p : Nat × Nat) : Nat := p.2

/-- Outcome of one external-process invocation, as observed through the
Rust `std::process` API: `spawnFail` is an `Err` from `Command::spawn`,
`waitFail` an `Err` from `Child::wait` (an OS-level error such as a
missing child, NOT a non-zero exit), `exited c` a normal exit with code
`c`, and `signaled s` termination by signal `s`.  Per the documented
semantics of `Child::wait`, both `exited` and `signaled` are returned as
`Ok(ExitStatus)`. -/
inductive ProcOutcome
  | spawnFail
  | waitFail
  | exited (code : Int)
  | signaled (sig : Nat)
deriving DecidableEq, Repr

/-- The `spawn().expect(spawnMsg).wait().expect(waitMsg)` chain used by
every phase of the orchestrator: only `Err` results of `spawn`/`wait`
panic; the returned `ExitStatus` itself is never inspected by the
source, so `exited`/`signaled` outcomes flow through as `ok`. -/
def phaseWaitChain (spawnMsg waitMsg : String) : ProcOutcome → Except String ProcOutcome
  | .spawnFail => .error spawnMsg
  | .waitFail => .error waitMsg
  | .exited c => .ok (.exited c)
  | .signaled s => .ok (.signaled s)

/-- Bootstrap phase process handling (src/src/lib.rs lines 154-170,
`init_run`): messages of the two `expect` calls. -/
def initRunWait : ProcOutcome → Except String ProcOutcome :=
  phaseWaitChain "[!] Could not spawn snapshot run" "[!] Snapshot run failed"

/-- Checkpoint-from-seed phase process handling (src/src/lib.rs lines
195-212, `snapshot_run`): same `expect` messages as the bootstrap. -/
def snapshotRunWait : ProcOutcome → Except String ProcOutcome :=
  phaseWaitChain "[!] Could not spawn snapshot run" "[!] Snapshot run failed"

/-- Fuzz phase process handling: `fuzz_run` returns the spawn result and
`run` applies `expect` at lines 402-405. -/
def fuzzRunWait : ProcOutcome → Except String ProcOutcome :=
  phaseWaitChain "[!] Failed to start fuzz run" "[!] Error while waiting for fuzz run"

/-- Coverage-map generation phase process handling: `gen_afl_maps`
returns the spawn result and `run` applies `expect` at lines 411-414. -/
def showmapWait : ProcOutcome → Except String ProcOutcome :=
  phaseWaitChain "[!] Failed to start the showmap run" "[!] Error while waiting for the showmap run"

/-- Whether the given process-handling result is a panic (fatal to the
whole orchestration run, which has no handler). -/
def isFatal {α : Type} : Except String α → Bool
  | .error _ => true
  | .ok _ => false

/-! ## Filesystem model

Paths are lists of components; `format!("active-state/{}", sp)` becomes
`["active-state", sp]`.  The sole place where the source manipulates a
path as a raw string in a way that matters is the `rm` helper, which is
therefore given the source's string formatting together with a POSIX
path parser. -/

/-- A filesystem path, as a list of components. -/
abbrev FPath := List String

/-- Decidable component-wise prefix test: `isPre root p` holds when the
entry at `p` lives in the subtree rooted at `root` (including `root`
itself). -/
def isPre : FPath → FPath → Bool
  | [], _ => true
  | _ :: _, [] => false
  | x :: xs, y :: ys => if x = y then isPre xs ys else false

/-- Relocation of one path under a `mv`/`cp -r` of the subtree at `src`
to `dst`: paths inside the subtree get their root replaced, others are
untouched. -/
def reloc (src dst : FPath) (p : FPath) : FPath :=
  if isPre src p then dst ++ p.drop src.length else p

/-- Filesystem state: the set of existing directories and the existing
files with their contents.  Later writes shadow earlier entries of
`files` (lookup takes the first hit). -/
structure FS where
  dirs : List FPath
  files : List (FPath × String)
deriving DecidableEq, Repr

/-- First-hit lookup of a file's content. -/
def lookupF : List (FPath × String) → FPath → Option String
  | [], _ => none
  | e :: t, p => if e.1 = p then some e.2 else lookupF t p

/-- Membership test on a list of paths. -/
def elemF : List FPath → FPath → Bool
  | [], _ => false
  | q :: t, p => if q = p then true else elemF t p

/-- Whether `p` exists as a directory. -/
def FS.isDir (fs : FS) (p : FPath) : Bool := elemF fs.dirs p

/-- Content of the file at `p`, if any (Rust `fs::read_to_string` /
`File::open`). -/
def FS.readFile (fs : FS) (p : FPath) : Option String := lookupF fs.files p

/-- Whether anything (directory or file) exists at `p` (Rust
`Path::exists`). -/
def FS.pathPresent (fs : FS) (p : FPath) : Bool :=
  fs.isDir p || (fs.readFile p).isSome

/-- Whether the directory at `p` has any entry strictly below it. -/
def FS.hasEntryUnder (fs : FS) (p : FPath) : Bool :=
  fs.dirs.any (fun q => decide (q ≠ p) && isPre p q) ||
    fs.files.any (fun e => isPre p e.1)

/-- Rust `fs::create_dir`: fails if the path already exists.  (The
parent-must-exist failure mode is elided: the orchestrator always
creates parents first.) -/
def FS.createDir (fs : FS) (p : FPath) : Option FS :=
  if fs.pathPresent p then none else some ⟨p :: fs.dirs, fs.files⟩

/-- Rust `fs::remove_dir` — the NON-recursive remove used at
src/src/lib.rs line 93: fails unless `p` is an existing EMPTY
directory. -/
def FS.removeDirNonRec (fs : FS) (p : FPath) : Option FS :=
  if fs.isDir p && !fs.hasEntryUnder p then
    some ⟨fs.dirs.filter (fun q => decide (q ≠ p)), fs.files⟩
  else none

/-- Write `c` to the file at `p`, creating or overwriting it. -/
def FS.setFile (fs : FS) (p : FPath) (c : String) : FS :=
  ⟨fs.dirs, (p, c) :: fs.files⟩

/-- Rust `OpenOptions::new().create(true).write(true).open(p)` as used
for `out/.cur_input` at lines 119-124: creates an empty file if absent,
keeps existing content otherwise (no truncation flag is set). -/
def FS.ensureFile (fs : FS) (p : FPath) : FS :=
  if (fs.readFile p).isSome then fs else fs.setFile p ""

/-- Rust `fs::copy src dst`: fails if the source file is missing. -/
def FS.copyFile (fs : FS) (src dst : FPath) : Option FS :=
  match fs.readFile src with
  | none => none
  | some c => some (fs.setFile dst c)

/-- Recursive forced delete (`rm -rf`) of the subtree rooted at
`root`. -/
def FS.deleteUnder (fs : FS) (root : FPath) : FS :=
  ⟨fs.dirs.filter (fun q => !isPre root q),
   fs.files.filter (fun e => !isPre root e.1)⟩

/-- Effect of the shell command `mv src dstParent/` (the `mv` helper,
src/src/lib.rs lines 13-23): the subtree at `src` is renamed to `dst`
(`dst` = `dstParent` + basename of `src`; the orchestrator only ever
moves into a fresh location). -/
def FS.mvTree (fs : FS) (src dst : FPath) : FS :=
  ⟨fs.dirs.map (reloc src dst), fs.files.map (fun e => (reloc src dst e.1, e.2))⟩

/-- Effect of the shell command `cp -r src dstParent/` (the `copy`
helper, src/src/lib.rs lines 25-36): a copy of the subtree at `src`
appears at `dst`, the original stays. -/
def FS.copyTree (fs : FS) (src dst : FPath) : FS :=
  ⟨(fs.dirs.filter (fun q => isPre src q)).map (reloc src dst) ++ fs.dirs,
   (fs.files.filter (fun e => isPre src e.1)).map (fun e => (reloc src dst e.1, e.2))
     ++ fs.files⟩

/-- Names of the files directly inside directory `d`. -/
def FS.listDirFiles (fs : FS) (d : FPath) : List String :=
  fs.files.filterMap (fun e =>
    if e.1.length = d.length + 1 && isPre d e.1 then e.1.getLast? else none)

/-! ## External commands and the world -/

/-- One observable external action: a spawned collaborator process or a
spawned shell helper.  The orchestrator's own `std::fs` calls act on
`FS` directly. -/
inductive Effect
  | copyDirCmd (src dst : FPath)
  | mvDirCmd (src dst : FPath)
  | rmCmd (target : String)
  | spawnQemuTrace (state_path target_bin : String)
  | spawnRestoreSnapshot (state_path : String) (stdin : FPath)
  | spawnAflFuzz (state_path : String) (timeout : Nat)
  | spawnAflShowmap (state_path previous_state_path : String)
deriving DecidableEq, Repr

/-- Filesystem plus the trace of spawned external commands (most recent
first). -/
structure World where
  fs : FS
  trace : List Effect
deriving DecidableEq, Repr

/-- The string handed to `rm -rf` by the `rm` helper:
`format!("./active-state/{}", target)` (src/src/lib.rs line 41). -/
def rmCommandPath (target : String) : String := "./active-state/" ++ target

/-- Splits a character list into the chunks delimited by `/`. -/
def splitSlashAux : List Char → String → List String
  | [], cur => [cur]
  | c :: cs, cur =>
    if c = '/' then cur :: splitSlashAux cs "" else splitSlashAux cs (cur.push c)

/-- POSIX-normalising path parser: splits on `/` and discards empty and
`.` components (so a trailing slash or a leading `./` does not change
which filesystem object is named). -/
def parsePath (s : String) : FPath :=
  (splitSlashAux s.data "").filter (fun c => decide (c ≠ "") && decide (c ≠ "."))

/-- Mirrors the `rm` helper (src/src/lib.rs lines 38-47): spawns
`rm -rf ./active-state/{target}`; the command recursively deletes the
subtree named by `rmCommandPath target`.  Because the fixed part
`./active-state/` ends at a separator, parsing the formatted string
always yields the component `"active-state"` followed by the components
of `target` — i.e. `parsePath (rmCommandPath target) =
"active-state" :: parsePath target` (checked below on the targets the
orchestrator uses); the deletion root is computed in that componentwise
form.  Failure of the spawned command is invisible to the orchestrator
(`Child::wait` returns `Ok` regardless of the exit code), so the
operation is total. -/
def rm (w : World) (target : String) : World :=
  ⟨w.fs.deleteUnder ("active-state" :: parsePath target),
   Effect.rmCmd target :: w.trace⟩

/-- Sanity of the componentwise deletion root against the source's
string formatting, at the empty target (the `previous_state_path` of a
parentless root). -/
lemma parsePath_rmCommandPath_empty :
    parsePath (rmCommandPath "") = ["active-state"] ∧
    "active-state" :: parsePath "" = ["active-state"] := by
  decide

/-- Sanity of the componentwise deletion root against the source's
string formatting, at an ordinary state name. -/
lemma parsePath_rmCommandPath_state :
    parsePath (rmCommandPath "fitm-c1s0") = ["active-state", "fitm-c1s0"] ∧
    "active-state" :: parsePath "fitm-c1s0" = ["active-state", "fitm-c1s0"] := by
  decide

/-! ## The run abstraction -/

/-- Mirrors `struct AFLRun` (src/src/lib.rs lines 50-66). -/
structure AFLRun where
  state_path : String
  target_bin : String
  previous_state_path : String
  timeout : Nat
  server : Bool
deriving DecidableEq, Repr

/-- Mirrors `AFLRun::new` (src/src/lib.rs lines 83-133): if
`active-state/{state_path}` already exists it is removed with
`fs::remove_dir` (`expect` panics when that fails), then the directory
tree `in`, `out`, `out/maps`, `fd`, `snapshot` is created together with
the dummy `out/.cur_input` file. -/
def AFLRun.new (state_path target_bin : String) (timeout : Nat)
    (previous_state_path : String) (server : Bool) (w : World) :
    Except String (AFLRun × World) :=
  let base : FPath := ["active-state", state_path]
  match (if w.fs.pathPresent base then w.fs.removeDirNonRec base else some w.fs) with
  | none => .error "[-] Could not remove duplicate state dir!"
  | some fs0 =>
    match fs0.createDir base with
    | none => .error "[-] Could not create state dir!"
    | some fs1 =>
      match fs1.createDir (base ++ ["in"]) with
      | none => .error "[-] Could not create in dir!"
      | some fs2 =>
        match fs2.createDir (base ++ ["out"]) with
        | none => .error "[-] Could not create out dir!"
        | some fs3 =>
          match fs3.createDir (base ++ ["out", "maps"]) with
          | none => .error "[-] Could not create out/maps dir!"
          | some fs4 =>
            match fs4.createDir (base ++ ["fd"]) with
            | none => .error "[-] Could not create fd dir!"
            | some fs5 =>
              match fs5.createDir (base ++ ["snapshot"]) with
              | none => .error "[-] Could not create snapshot dir!"
              | some fs6 =>
                .ok (⟨state_path, target_bin, previous_state_path, timeout, server⟩,
                     ⟨fs6.ensureFile (base ++ ["out", ".cur_input"]), w.trace⟩)

/-- Mirrors `AFLRun::init_run` (src/src/lib.rs lines 136-178): opens
`out/.cur_input` as stdin (panics when missing), creates `stdout` and
`stderr` log files in the state directory, spawns the qemu bootstrap
run, then `mv`es the state tree into `saved-states`. -/
def AFLRun.init_run (self : AFLRun) (w : World) : Except String World :=
  let base : FPath := ["active-state", self.state_path]
  match w.fs.readFile (base ++ ["out", ".cur_input"]) with
  | none => .error "called Option.unwrap on a None value while opening out/.cur_input"
  | some _ =>
    let fs1 := (w.fs.setFile (base ++ ["stdout"]) "").setFile (base ++ ["stderr"]) ""
    let tr1 := Effect.spawnQemuTrace self.state_path self.target_bin :: w.trace
    .ok ⟨fs1.mvTree base ["saved-states", self.state_path],
         Effect.mvDirCmd base ["saved-states", self.state_path] :: tr1⟩

/-- Mirrors `AFLRun::snapshot_run` (src/src/lib.rs lines 181-219): opens
the given seed file as stdin (panics when missing), creates `stdout` and
`stderr` log files, spawns `restore.sh` with the seed as the pending
input, then `mv`es the state tree into `saved-states` (the commit). -/
def AFLRun.snapshot_run (self : AFLRun) (stdin : FPath) (w : World) :
    Except String World :=
  let base : FPath := ["active-state", self.state_path]
  match w.fs.readFile stdin with
  | none => .error "called Option.unwrap on a None value while opening the snapshot stdin file"
  | some _ =>
    let fs1 := (w.fs.setFile (base ++ ["stdout"]) "").setFile (base ++ ["stderr"]) ""
    let tr1 := Effect.spawnRestoreSnapshot self.state_path stdin :: w.trace
    .ok ⟨fs1.mvTree base ["saved-states", self.state_path],
         Effect.mvDirCmd base ["saved-states", self.state_path] :: tr1⟩

/-- Mirrors `AFLRun::fuzz_run` (src/src/lib.rs lines 224-261): copies
`saved-states/{sp}` back into the working area and spawns `afl-fuzz`
bound to `in`/`out` with the restore shim as target, bounded by
`timeout`.  The spawn-outcome handling lives in `fuzzRunWait`. -/
def AFLRun.fuzz_run (self : AFLRun) (w : World) : World :=
  let src : FPath := ["saved-states", self.state_path]
  let dst : FPath := ["active-state", self.state_path]
  ⟨w.fs.copyTree src dst,
   Effect.spawnAflFuzz self.state_path self.timeout ::
     Effect.copyDirCmd src dst :: w.trace⟩

/-- Mirrors `AFLRun::gen_afl_maps` (src/src/lib.rs lines 266-305):
copies `saved-states/{previous_state_path}` into the working area and
spawns `afl-showmap` over the `fd` files against the counterpart's
restored checkpoint, writing one map file per input under `out/maps`.
The spawn-outcome handling lives in `showmapWait`. -/
def AFLRun.gen_afl_maps (self : AFLRun) (w : World) : World :=
  let src : FPath := ["saved-states", self.previous_state_path]
  let dst : FPath := ["active-state", self.previous_state_path]
  ⟨w.fs.copyTree src dst,
   Effect.spawnAflShowmap self.state_path self.previous_state_path ::
     Effect.copyDirCmd src dst :: w.trace⟩

/-- Mirrors `AFLRun::create_new_run` (src/src/lib.rs lines 307-343):
builds the child node via `AFLRun::new` with flipped role and the
counterpart binary, copies the triggering candidate from the parent's
`fd` directory into the child's `in` corpus, and drives the child
through `snapshot_run` with that candidate as seed. -/
def AFLRun.create_new_run (self : AFLRun) (new_state : Nat × Nat)
    (input : String) (timeout : Nat) (w : World) :
    Except String (AFLRun × World) :=
  let input_path : FPath := ["active-state", self.state_path, "fd", input]
  let target_bin : String :=
    if self.server then "test/pseudoclient" else "test/pseudoserver"
  match AFLRun.new (renderId new_state) target_bin timeout
      self.state_path (!self.server) w with
  | .error e => .error e
  | .ok (afl, w1) =>
    let seed_file_path : FPath := ["active-state", afl.state_path, "in", input]
    match w1.fs.copyFile input_path seed_file_path with
    | none => .error "[!] Could not copy to new afl.state_path"
    | some fs2 =>
      match afl.snapshot_run seed_file_path ⟨fs2, w1.trace⟩ with
      | .error e => .error e
      | .ok w3 => .ok (afl, w3)

/-! ## The scheduler / consolidation loop (`run`, src/src/lib.rs 361-487)

The mutable state of the loop: the coverage dedup set `client_maps`
(`BTreeSet<String>`, abstracted to its set semantics as a
`Finset String`), the shared generation cursor `cur_state`, the FIFO
work queue (head = front), and the world. -/

/-- The scheduler loop's mutable state. -/
structure SchedState where
  client_maps : Finset String
  cur_state : Nat × Nat
  queue : List AFLRun
  world : World
deriving DecidableEq

/-- Mirrors src/src/lib.rs lines 479-482: the processed node is pushed
back unless it is the hard-coded `fitm-c0s1`.  Note the check sits
INSIDE the per-map-file loop in the source, so it runs once per
consolidated map file. -/
def requeueCheck (afl_current : AFLRun) (s : SchedState) : SchedState :=
  if afl_current.state_path ≠ "fitm-c0s1" then
    { s with queue := s.queue ++ [afl_current] }
  else s

/-- One iteration of the consolidation loop over the files of
`active-state/{cur}/out/maps` (src/src/lib.rs lines 432-483).  `entry`
is the pair (file name, file content) the source obtains from
`read_dir`/`read_to_string`.  On a novel signature the dedup set and the
shared cursor advance; a parentless node seeds the front-of-queue
sibling instead of creating a child; otherwise a child is created via
`create_new_run` and pushed to the back.  The working trees of the node
and (on novelty) its parent are then deleted via the `rm` helper, and
the node is re-enqueued by `requeueCheck`. -/
def consolidateMapEntry (afl_current : AFLRun) (s : SchedState)
    (entry : String × String) : Except String SchedState :=
  let in_file := entry.1
  let new_map := entry.2
  if new_map ∉ s.client_maps then
    let maps1 := insert new_map s.client_maps
    let cur1 := next_state_path s.cur_state afl_current.server
    if afl_current.previous_state_path = "" then
      match s.queue with
      | [] => .error "[!] Could not get second afl_run from queue"
      | tmp :: rest =>
        match s.world.fs.copyFile
            ["active-state", afl_current.state_path, "fd", in_file]
            ["saved-states", tmp.state_path, "in", in_file] with
        | none => .error "[!] Could not copy in file to new state"
        | some fs1 =>
          let w1 : World :=
            rm (rm ⟨fs1, s.world.trace⟩ afl_current.state_path)
              afl_current.previous_state_path
          .ok (requeueCheck afl_current ⟨maps1, cur1, tmp :: rest, w1⟩)
    else
      match afl_current.create_new_run cur1 in_file afl_current.timeout s.world with
      | .error e => .error e
      | .ok (next_run, wc) =>
        let w1 : World :=
          rm (rm wc afl_current.state_path) afl_current.previous_state_path
        .ok (requeueCheck afl_current
              ⟨maps1, cur1, s.queue ++ [next_run], w1⟩)
  else
    let w1 : World := rm s.world afl_current.state_path
    .ok (requeueCheck afl_current { s with world := w1 })

/-- The whole consolidation loop: fold `consolidateMapEntry` over the
map-file listing. -/
def consolidateAll (afl_current : AFLRun) (entries : List (String × String))
    (s : SchedState) : Except String SchedState :=
  entries.foldlM (consolidateMapEntry afl_current) s

/-- The guard of the Fuzz phase (src/src/lib.rs lines 400-401): the
phase is spawned when the node has a parent OR its path is not
`fitm-c0s1`. -/
def fuzzGuard (afl_current : AFLRun) : Bool :=
  decide (afl_current.previous_state_path ≠ "") ||
    decide (afl_current.state_path ≠ "fitm-c0s1")

/-- Mirrors src/src/lib.rs lines 415-427: for a parentless node, every
file of `active-state/{cur}/fd` is copied into
`saved-states/fitm-c0s1/in` (the counterpart root's corpus) instead of
running `afl-showmap`. -/
def seedCounterpartRoot (afl_current : AFLRun) (w : World) :
    Except String World :=
  let src : FPath := ["active-state", afl_current.state_path, "fd"]
  (w.fs.listDirFiles src).foldlM
    (fun wa fname =>
      match wa.fs.copyFile (src ++ [fname]) ["saved-states", "fitm-c0s1", "in", fname] with
      | none => .error "called Result.unwrap on an Err value while seeding fitm-c0s1"
      | some fs1 => .ok ⟨fs1, wa.trace⟩)
    w

/-- One pass of the `while` loop of `run` over a popped node
(src/src/lib.rs lines 396-483): conditionally run the Fuzz phase, then
either generate coverage maps (node with a parent) or seed the
counterpart root directly (parentless node), then consolidate every
produced map file.  `entries` abstracts the `read_dir` listing of
`active-state/{cur}/out/maps`: the map files are written by the external
`afl-showmap` process, so their names and contents are an input of the
model. -/
def processNode (afl_current : AFLRun) (entries : List (String × String))
    (s : SchedState) : Except String SchedState :=
  let w0 := if fuzzGuard afl_current then afl_current.fuzz_run s.world else s.world
  match (if afl_current.previous_state_path ≠ "" then
           .ok (afl_current.gen_afl_maps w0)
         else seedCounterpartRoot afl_current w0) with
  | .error e => .error e
  | .ok w1 => consolidateAll afl_current entries { s with world := w1 }

/-! ## The reference setup of `run` (src/src/lib.rs lines 361-391) -/

/-- The initial shared cursor `cur_state = (1, 0)` (line 363). -/
def initial_cur_state : Nat × Nat := (1, 0)

/-- The pre-seeded client root `fitm-c1s0` (lines 366-373): parentless
(`previous_state_path = ""`), role flag `server = false`. -/
def afl_client : AFLRun :=
  ⟨"fitm-c1s0", "test/pseudoclient", "", 1, false⟩

/-- The pre-seeded server root `fitm-c0s1` (lines 375-381): its
`previous_state_path` is `fitm-c1s0`, role flag `server = true`. -/
def afl_server : AFLRun :=
  ⟨"fitm-c0s1", "test/pseudoserver", "fitm-c1s0", 1, true⟩

/-- The initial work queue (lines 390-391): client first, then
server. -/
def initial_queue : List AFLRun := [afl_client, afl_server]

/-- Default scheduler state, used only to give total projections out of
`Except` results. -/
def defaultSched : SchedState := ⟨∅, (0, 0), [], ⟨⟨[], []⟩, []⟩⟩

instance : Inhabited SchedState := ⟨defaultSched⟩

/-- Whether an `Except` computation succeeded. -/
def okE {α : Type} : Except String α → Bool
  | .ok _ => true
  | .error _ => false

/-- The state delivered by a successful scheduler computation
(`defaultSched` on error; used only under `okE`). -/
def resultState : Except String SchedState → SchedState
  | .ok s => s
  | .error _ => defaultSched

/-! ## Helper lemmas about the filesystem model -/

lemma isPre_refl (l : FPath) : isPre l l = true := by
  induction l with
  | nil => rfl
  | cons x xs ih => simp [isPre, ih]

lemma isPre_append (l m : FPath) : isPre l (l ++ m) = true := by
  induction l with
  | nil => rfl
  | cons x xs ih => simp [isPre, ih]

lemma reloc_of_pre {src : FPath} (dst : FPath) {p : FPath}
    (h : isPre src p = true) : reloc src dst p = dst ++ p.drop src.length := by
  simp [reloc, h]

lemma reloc_append (src dst m : FPath) : reloc src dst (src ++ m) = dst ++ m := by
  rw [reloc_of_pre dst (isPre_append src m)]
  simp

lemma reloc_ne_src {src dst : FPath} (h : isPre dst src = false) (q : FPath) :
    reloc src dst q ≠ src := by
  unfold reloc
  by_cases hq : isPre src q = true
  · rw [if_pos hq]
    intro hc
    have : isPre dst src = true := hc ▸ isPre_append dst (q.drop src.length)
    simp [this] at h
  · rw [if_neg hq]
    intro hc
    subst hc
    exact hq (isPre_refl q)

lemma elemF_map_ne {f : FPath → FPath} {p : FPath}
    (hf : ∀ q, f q ≠ p) (L : List FPath) : elemF (L.map f) p = false := by
  induction L with
  | nil => rfl
  | cons q t ih => simp [elemF, ih, hf q]

lemma elemF_filter_false {pb : FPath → Bool} {p : FPath}
    (hp : pb p = false) (L : List FPath) : elemF (L.filter pb) p = false := by
  induction L with
  | nil => rfl
  | cons q t ih =>
    by_cases hq : q = p
    · subst hq
      simp [List.filter_cons, hp, ih]
    · cases hpb : pb q
      · simp [List.filter_cons, hpb, ih]
      · simp [List.filter_cons, hpb, elemF, hq, ih]

lemma lookupF_cons_ne {e : FPath × String} {l : List (FPath × String)} {p : FPath}
    (h : e.1 ≠ p) : lookupF (e :: l) p = lookupF l p := by
  simp [lookupF, h]

lemma lookupF_filter {pb : FPath → Bool} {q : FPath} (hq : pb q = true)
    (l : List (FPath × String)) :
    lookupF (l.filter (fun e => pb e.1)) q = lookupF l q := by
  induction l with
  | nil => rfl
  | cons e t ih =>
    by_cases he : e.1 = q
    · have hk : pb e.1 = true := by rw [he]; exact hq
      simp [List.filter_cons, hk, hq, lookupF, he, ih]
    · cases hpb : pb e.1
      · simp [List.filter_cons, hpb, lookupF, he, ih]
      · simp [List.filter_cons, hpb, lookupF, he, ih]

lemma lookupF_filter_none {pb : FPath → Bool} {p : FPath} (hp : pb p = false)
    (l : List (FPath × String)) :
    lookupF (l.filter (fun e => pb e.1)) p = none := by
  induction l with
  | nil => rfl
  | cons e t ih =>
    by_cases he : e.1 = p
    · have hk : pb e.1 = false := by rw [he]; exact hp
      simp [List.filter_cons, hk, ih]
    · cases hpb : pb e.1
      · simp [List.filter_cons, hpb, ih]
      · simp [List.filter_cons, hpb, lookupF, he, ih]

lemma deleteUnder_kills {fs : FS} {root p : FPath} (hp : isPre root p = true) :
    (fs.deleteUnder root).pathPresent p = false := by
  unfold FS.deleteUnder FS.pathPresent FS.isDir FS.readFile
  have hd : elemF (fs.dirs.filter (fun q => !isPre root q)) p = false :=
    elemF_filter_false (by simp [hp]) fs.dirs
  have hf : lookupF (fs.files.filter (fun e => !isPre root e.1)) p = none :=
    @lookupF_filter_none (fun q => !isPre root q) p (by simp [hp]) fs.files
  simp [hd, hf]

lemma deleteUnder_readFile {fs : FS} {root p : FPath} (hp : isPre root p = false) :
    (fs.deleteUnder root).readFile p = fs.readFile p := by
  unfold FS.deleteUnder FS.readFile
  exact @lookupF_filter (fun q => !isPre root q) p (by simp [hp]) fs.files

lemma isPre_activeState_savedStates (t u : FPath) :
    isPre ("active-state" :: t) ("saved-states" :: u) = false := by
  simp [isPre]

/-! ## Helper lemmas about the scheduler -/

lemma requeueCheck_world (a : AFLRun) (s : SchedState) :
    (requeueCheck a s).world = s.world := by
  unfold requeueCheck; split <;> rfl

lemma requeueCheck_maps (a : AFLRun) (s : SchedState) :
    (requeueCheck a s).client_maps = s.client_maps := by
  unfold requeueCheck; split <;> rfl

lemma requeueCheck_cursor (a : AFLRun) (s : SchedState) :
    (requeueCheck a s).cur_state = s.cur_state := by
  unfold requeueCheck; split <;> rfl

lemma requeueCheck_queue (a : AFLRun) (s : SchedState) :
    (requeueCheck a s).queue = s.queue ++ (if a.state_path = "fitm-c0s1" then [] else [a]) := by
  unfold requeueCheck
  by_cases h : a.state_path = "fitm-c0s1" <;> simp [h]

/-- Master case analysis of one successful consolidation step: the
duplicate-signature case, the novel-signature case on a parentless node,
and the novel-signature case with child creation. -/
lemma consolidateMapEntry_ok {afl_current : AFLRun} {s : SchedState}
    {entry : String × String} {s' : SchedState}
    (hok : consolidateMapEntry afl_current s entry = .ok s') :
    (entry.2 ∈ s.client_maps ∧
      s' = requeueCheck afl_current
        { s with world := rm s.world afl_current.state_path }) ∨
    (entry.2 ∉ s.client_maps ∧ afl_current.previous_state_path = "" ∧
      ∃ tmp rest fs1,
        s.queue = tmp :: rest ∧
        s.world.fs.copyFile
            ["active-state", afl_current.state_path, "fd", entry.1]
            ["saved-states", tmp.state_path, "in", entry.1] = some fs1 ∧
        s' = requeueCheck afl_current
          ⟨insert entry.2 s.client_maps,
           next_state_path s.cur_state afl_current.server,
           tmp :: rest,
           rm (rm ⟨fs1, s.world.trace⟩ afl_current.state_path)
             afl_current.previous_state_path⟩) ∨
    (entry.2 ∉ s.client_maps ∧ afl_current.previous_state_path ≠ "" ∧
      ∃ next_run wc,
        afl_current.create_new_run (next_state_path s.cur_state afl_current.server)
            entry.1 afl_current.timeout s.world = .ok (next_run, wc) ∧
        s' = requeueCheck afl_current
          ⟨insert entry.2 s.client_maps,
           next_state_path s.cur_state afl_current.server,
           s.queue ++ [next_run],
           rm (rm wc afl_current.state_path) afl_current.previous_state_path⟩) := by
  simp only [consolidateMapEntry] at hok
  split at hok
  · -- novel signature
    next hm =>
    split at hok
    · -- parentless node
      next hp =>
      split at hok
      · exact absurd hok (by simp)
      · next tmp rest heq =>
        split at hok
        · exact absurd hok (by simp)
        · next fs1 hcp =>
          right; left
          exact ⟨hm, hp, tmp, rest, fs1, heq, hcp,
            ((Except.ok.injEq _ _).mp hok).symm⟩
    · -- node with a parent
      next hp =>
      split at hok
      · exact absurd hok (by simp)
      · next next_run wc hcr =>
        right; right
        exact ⟨hm, hp, next_run, wc, hcr,
          ((Except.ok.injEq _ _).mp hok).symm⟩
  · -- duplicate signature
    next hm =>
    left
    exact ⟨not_not.mp hm, ((Except.ok.injEq _ _).mp hok).symm⟩

lemma copyFile_ok {fs : FS} {src dst : FPath} {fs1 : FS}
    (h : fs.copyFile src dst = some fs1) :
    ∃ c, fs.readFile src = some c ∧ fs1 = fs.setFile dst c := by
  unfold FS.copyFile at h
  cases hr : fs.readFile src with
  | none => rw [hr] at h; cases h
  | some c => rw [hr] at h; exact ⟨c, rfl, ((Option.some.injEq _ _).mp h).symm⟩

lemma readFile_setFile_same (fs : FS) (p : FPath) (c : String) :
    (fs.setFile p c).readFile p = some c := by
  simp [FS.setFile, FS.readFile, lookupF]

lemma rm_trace (w : World) (target : String) :
    (rm w target).trace = Effect.rmCmd target :: w.trace := rfl

lemma rm_fs (w : World) (target : String) :
    (rm w target).fs = w.fs.deleteUnder ("active-state" :: parsePath target) := rfl

/-- The dedup-set / cursor effect of one successful consolidation
step. -/
lemma consolidate_step_maps {afl_current : AFLRun} {s : SchedState}
    {entry : String × String} {s' : SchedState}
    (hok : consolidateMapEntry afl_current s entry = .ok s') :
    (entry.2 ∈ s.client_maps ∧ s'.client_maps = s.client_maps ∧
      s'.cur_state = s.cur_state) ∨
    (entry.2 ∉ s.client_maps ∧ s'.client_maps = insert entry.2 s.client_maps ∧
      s'.cur_state = next_state_path s.cur_state afl_current.server) := by
  rcases consolidateMapEntry_ok hok with ⟨hm, hs⟩ |
    ⟨hm, _, _, _, _, _, _, hs⟩ | ⟨hm, _, _, _, _, hs⟩
  · exact Or.inl ⟨hm, by rw [hs, requeueCheck_maps],
      by rw [hs, requeueCheck_cursor]⟩
  · exact Or.inr ⟨hm, by rw [hs, requeueCheck_maps],
      by rw [hs, requeueCheck_cursor]⟩
  · exact Or.inr ⟨hm, by rw [hs, requeueCheck_maps],
      by rw [hs, requeueCheck_cursor]⟩

/-- The dedup set only grows along the whole consolidation fold. -/
lemma consolidateAll_maps_mono (afl_current : AFLRun) :
    ∀ (entries : List (String × String)) (s s' : SchedState),
      consolidateAll afl_current entries s = .ok s' →
      s.client_maps ⊆ s'.client_maps := by
  intro entries
  induction entries with
  | nil =>
    intro s s' h
    simp only [consolidateAll, List.foldlM, pure, Except.pure, Except.ok.injEq] at h
    rw [← h]
  | cons e t ih =>
    intro s s' h
    rw [consolidateAll, List.foldlM_cons] at h
    cases hstep : consolidateMapEntry afl_current s e with
    | error msg => rw [hstep] at h; exact absurd h (by simp [Bind.bind, Except.bind])
    | ok s1 =>
      rw [hstep] at h
      have h2 : consolidateAll afl_current t s1 = .ok s' := by
        simpa [Bind.bind, Except.bind, consolidateAll] using h
      have hsub : s.client_maps ⊆ s1.client_maps := by
        rcases consolidate_step_maps hstep with ⟨_, hm, _⟩ | ⟨_, hm, _⟩
        · rw [hm]
        · rw [hm]; exact Finset.subset_insert _ _
      exact hsub.trans (ih s1 s' h2)

/-- Each successful consolidation step preserves the quantity
(cursor-sum − dedup-set size): a novel signature bumps both by one, a
duplicate bumps neither. -/
lemma consolidate_step_sum {afl_current : AFLRun} {s : SchedState}
    {entry : String × String} {s' : SchedState}
    (hok : consolidateMapEntry afl_current s entry = .ok s') :
    clientGeneration s'.cur_state + serverGeneration s'.cur_state +
        s.client_maps.card =
      clientGeneration s.cur_state + serverGeneration s.cur_state +
        s'.client_maps.card := by
  rcases consolidate_step_maps hok with ⟨_, hmm, hc⟩ | ⟨hm, hmm, hc⟩
  · rw [hmm, hc]
  · rw [hmm, hc, Finset.card_insert_of_not_mem hm]
    cases hsrv : afl_current.server <;>
      simp [next_state_path, clientGeneration, serverGeneration] <;> omega

/-- The cursor-sum invariant along the whole consolidation fold. -/
lemma consolidateAll_sum (afl_current : AFLRun) :
    ∀ (entries : List (String × String)) (s s' : SchedState),
      consolidateAll afl_current entries s = .ok s' →
      clientGeneration s'.cur_state + serverGeneration s'.cur_state +
          s.client_maps.card =
        clientGeneration s.cur_state + serverGeneration s.cur_state +
          s'.client_maps.card := by
  intro entries
  induction entries with
  | nil =>
    intro s s' h
    simp only [consolidateAll, List.foldlM, pure, Except.pure, Except.ok.injEq] at h
    rw [← h]
  | cons e t ih =>
    intro s s' h
    rw [consolidateAll, List.foldlM_cons] at h
    cases hstep : consolidateMapEntry afl_current s e with
    | error msg => rw [hstep] at h; exact absurd h (by simp [Bind.bind, Except.bind])
    | ok s1 =>
      rw [hstep] at h
      have h2 : consolidateAll afl_current t s1 = .ok s' := by
        simpa [Bind.bind, Except.bind, consolidateAll] using h
      have hA := consolidate_step_sum hstep
      have hB := ih s1 s' h2
      omega

lemma isPre_savedStates_activeState (t u : FPath) :
    isPre ("saved-states" :: t) ("active-state" :: u) = false := by
  simp [isPre]

lemma elemF_map_of_mem {f : FPath → FPath} {L : List FPath} {q : FPath}
    (hq : elemF L q = true) : elemF (L.map f) (f q) = true := by
  induction L with
  | nil => simp [elemF] at hq
  | cons x t ih =>
    by_cases hx : x = q
    · subst hx; simp [List.map, elemF]
    · have hq2 : elemF t q = true := by simpa [elemF, hx] using hq
      by_cases hf : f x = f q
      · simp [List.map, elemF, hf]
      · simp [List.map, elemF, hf, ih hq2]

lemma createDir_ok {fs : FS} {p : FPath} {fs' : FS}
    (h : fs.createDir p = some fs') : fs' = ⟨p :: fs.dirs, fs.files⟩ := by
  unfold FS.createDir at h
  split at h
  · cases h
  · exact ((Option.some.injEq _ _).mp h).symm

lemma removeDirNonRec_files {fs : FS} {p : FPath} {fs' : FS}
    (h : fs.removeDirNonRec p = some fs') : fs'.files = fs.files := by
  unfold FS.removeDirNonRec at h
  split at h
  · rw [← ((Option.some.injEq _ _).mp h)]
  · cases h

/-- Shape of the world returned by a successful `AFLRun.new`: unchanged
trace, the six fresh directories in front of (a filtering of) the old
ones, and the old files possibly extended with the empty
`out/.cur_input`. -/
lemma AFLRun_new_ok_world {sp tb : String} {t : Nat} {prev : String}
    {srv : Bool} {w : World} {r : AFLRun × World}
    (hok : AFLRun.new sp tb t prev srv w = .ok r) :
    r.2.trace = w.trace ∧
    (∃ ds : List FPath,
      r.2.fs.dirs =
        ["active-state", sp, "snapshot"] :: ["active-state", sp, "fd"] ::
        ["active-state", sp, "out", "maps"] :: ["active-state", sp, "out"] ::
        ["active-state", sp, "in"] :: ["active-state", sp] :: ds) ∧
    (r.2.fs.files = w.fs.files ∨
     r.2.fs.files = (["active-state", sp, "out", ".cur_input"], "") :: w.fs.files) := by
  simp only [AFLRun.new, List.cons_append, List.nil_append] at hok
  split at hok
  · exact absurd hok (by simp)
  next fs0 h0 =>
  split at hok
  · exact absurd hok (by simp)
  next fs1 h1 =>
  split at hok
  · exact absurd hok (by simp)
  next fs2 h2 =>
  split at hok
  · exact absurd hok (by simp)
  next fs3 h3 =>
  split at hok
  · exact absurd hok (by simp)
  next fs4 h4 =>
  split at hok
  · exact absurd hok (by simp)
  next fs5 h5 =>
  split at hok
  · exact absurd hok (by simp)
  next fs6 h6 =>
  have hfiles0 : fs0.files = w.fs.files := by
    split at h0
    · exact removeDirNonRec_files h0
    · rw [← ((Option.some.injEq _ _).mp h0)]
  have e1 := createDir_ok h1
  have e2 := createDir_ok h2
  have e3 := createDir_ok h3
  have e4 := createDir_ok h4
  have e5 := createDir_ok h5
  have e6 := createDir_ok h6
  have hr := ((Except.ok.injEq _ _).mp hok)
  rw [← hr]
  have hdirs6 : fs6.dirs =
      ["active-state", sp, "snapshot"] :: ["active-state", sp, "fd"] ::
      ["active-state", sp, "out", "maps"] :: ["active-state", sp, "out"] ::
      ["active-state", sp, "in"] :: ["active-state", sp] :: fs0.dirs := by
    rw [e6, e5, e4, e3, e2, e1]
  have hfiles6 : fs6.files = w.fs.files := by
    rw [e6, e5, e4, e3, e2, e1]
    exact hfiles0
  constructor
  · rfl
  constructor
  · refine ⟨fs0.dirs, ?_⟩
    show (fs6.ensureFile (["active-state", sp, "out", ".cur_input"])).dirs = _
    unfold FS.ensureFile
    split
    · exact hdirs6
    · show fs6.dirs = _
      exact hdirs6
  · show (fs6.ensureFile (["active-state", sp, "out", ".cur_input"])).files = _ ∨ _
    unfold FS.ensureFile
    split
    · left
      exact hfiles6
    · right
      show ((["active-state", sp, "out", ".cur_input"], "") : FPath × String) :: fs6.files =
        (["active-state", sp, "out", ".cur_input"], "") :: w.fs.files
      rw [hfiles6]

/-- Shape of the world returned by a successful `snapshot_run`: the seed
file must exist, the `stdout`/`stderr` logs are created and the whole
state tree is moved into `saved-states`, with the restore spawn and the
`mv` recorded. -/
lemma snapshot_run_ok {self : AFLRun} {stdin : FPath} {w : World} {w' : World}
    (hok : self.snapshot_run stdin w = .ok w') :
    (w.fs.readFile stdin).isSome = true ∧
    w' = ⟨((w.fs.setFile ["active-state", self.state_path, "stdout"] "").setFile
             ["active-state", self.state_path, "stderr"] "").mvTree
             ["active-state", self.state_path] ["saved-states", self.state_path],
          Effect.mvDirCmd ["active-state", self.state_path]
              ["saved-states", self.state_path] ::
            Effect.spawnRestoreSnapshot self.state_path stdin :: w.trace⟩ := by
  simp only [AFLRun.snapshot_run, List.cons_append, List.nil_append] at hok
  split at hok
  · exact absurd hok (by simp)
  next c hrd =>
  exact ⟨by rw [hrd]; rfl, ((Except.ok.injEq _ _).mp hok).symm⟩

/-- The record returned by a successful `AFLRun.new` is built from the
constructor arguments. -/
lemma AFLRun_new_ok_fst {sp tb : String} {t : Nat} {prev : String} {srv : Bool}
    {w : World} {r : AFLRun × World}
    (hok : AFLRun.new sp tb t prev srv w = .ok r) :
    r.1 = ⟨sp, tb, prev, t, srv⟩ := by
  simp only [AFLRun.new] at hok
  split at hok
  · exact absurd hok (by simp)
  split at hok
  · exact absurd hok (by simp)
  split at hok
  · exact absurd hok (by simp)
  split at hok
  · exact absurd hok (by simp)
  split at hok
  · exact absurd hok (by simp)
  split at hok
  · exact absurd hok (by simp)
  split at hok
  · exact absurd hok (by simp)
  rw [← ((Except.ok.injEq _ _).mp hok)]

/-- The child record returned by a successful `create_new_run`: name
rendered from the allocated id, counterpart binary, parent's path as
lineage pointer, flipped role flag. -/
lemma create_new_run_ok_child {self : AFLRun} {ns : Nat × Nat} {input : String}
    {timeout : Nat} {w : World} {child : AFLRun} {w' : World}
    (hok : self.create_new_run ns input timeout w = .ok (child, w')) :
    child = ⟨renderId ns,
             if self.server then "test/pseudoclient" else "test/pseudoserver",
             self.state_path, timeout, !self.server⟩ := by
  simp only [AFLRun.create_new_run] at hok
  split at hok
  · exact absurd hok (by simp)
  next afl w1 hnew =>
  split at hok
  · exact absurd hok (by simp)
  next fs2 hcp =>
  split at hok
  · exact absurd hok (by simp)
  next w3 hsnap =>
  have h1 : afl = child := congrArg Prod.fst ((Except.ok.injEq _ _).mp hok)
  rw [← h1]
  exact AFLRun_new_ok_fst hnew

end FitM

namespace FitM

/-! ## Claim C1: the state-id allocator -/

/-- C1, counterexample: at the concrete id `(3, 5)` the bump flag set to
`true` does NOT leave the client generation unchanged and increment the
server generation — `next_state_path` increments the client counter
(the first component, printed after `c`). -/
theorem C1_counterexample :
    ¬ (clientGeneration (next_state_path (3, 5) true) = clientGeneration (3, 5) ∧
       serverGeneration (next_state_path (3, 5) true) = serverGeneration (3, 5) + 1) := by
  decide

/-- C1, amended: `next_state_path a true` increments the CLIENT
generation and leaves the server generation unchanged;
`next_state_path a false` increments the SERVER generation and leaves
the client generation unchanged.  Exactly one counter changes, and the
function is a pure function of its arguments. -/
theorem C1_next_state_path_amended (a : Nat × Nat) :
    next_state_path a true = (clientGeneration a + 1, serverGeneration a) ∧
    next_state_path a false = (clientGeneration a, serverGeneration a + 1) ∧
    serverGeneration (next_state_path a true) = serverGeneration a ∧
    clientGeneration (next_state_path a false) = clientGeneration a := by
  simp [next_state_path, clientGeneration, serverGeneration]

/-! ## Claim C3: materialising over a stale directory -/

/-- A working area holding a stale, non-empty tree for `fitm-c1s0` (it
still contains its `in` subdirectory). -/
def staleWorld : World :=
  ⟨⟨[["active-state"], ["saved-states"],
     ["active-state", "fitm-c1s0"], ["active-state", "fitm-c1s0", "in"]], []⟩, []⟩

/-- C3: evaluating `AFLRun::new` at the failing input.  The state
directory pre-exists and is non-empty, so the non-recursive
`fs::remove_dir` fails and the `expect` panics — the stale tree is NOT
removed and recreated; materialisation dies with
"Could not remove duplicate state dir!". -/
theorem C3_stale_tree_panics :
    staleWorld.fs.pathPresent ["active-state", "fitm-c1s0"] = true ∧
    staleWorld.fs.hasEntryUnder ["active-state", "fitm-c1s0"] = true ∧
    AFLRun.new "fitm-c1s0" "test/pseudoclient" 1 "" false staleWorld =
      .error "[-] Could not remove duplicate state dir!" := by
  decide

/-! ## Claim C4: fatality of phase failures -/

/-- C4, counterexample: a non-zero exit (`exited 1`) of the fuzz phase
and a signal-terminated bootstrap phase (`signaled 9`) are NOT fatal —
`Child::wait` returns `Ok(ExitStatus)` for them and the source never
inspects the status, so the `expect` chain succeeds. -/
theorem C4_counterexample :
    fuzzRunWait (ProcOutcome.exited 1) = Except.ok (ProcOutcome.exited 1) ∧
    initRunWait (ProcOutcome.signaled 9) = Except.ok (ProcOutcome.signaled 9) := by
  decide

/-- C4, amended: for each of the four lifecycle phases, a failure to
spawn the external process, or an OS-level error from waiting on it, is
fatal (an unhandled panic, never retried); the process's exit status is
never examined, so a phase is fatal in exactly those two cases and a
non-zero or abnormal exit flows through silently. -/
theorem C4_phase_fatality_amended (o : ProcOutcome) :
    (isFatal (initRunWait o) = true ↔ o = .spawnFail ∨ o = .waitFail) ∧
    (isFatal (snapshotRunWait o) = true ↔ o = .spawnFail ∨ o = .waitFail) ∧
    (isFatal (fuzzRunWait o) = true ↔ o = .spawnFail ∨ o = .waitFail) ∧
    (isFatal (showmapWait o) = true ↔ o = .spawnFail ∨ o = .waitFail) := by
  cases o <;>
    simp [initRunWait, snapshotRunWait, fuzzRunWait, showmapWait,
      phaseWaitChain, isFatal]

/-! ## Claim C5: the Fuzz-phase guard -/

/-- C5, counterexample: the pre-seeded server root `fitm-c0s1` of the
reference setup has `previous_state_path = "fitm-c1s0"`, so the guard at
lines 400-401 (parent non-empty OR path not `fitm-c0s1`) is TRUE for it
and the Fuzz phase is spawned, not skipped: one pass of the loop over
`afl_server` records a `spawnAflFuzz` effect. -/
theorem C5_counterexample :
    afl_server.state_path = "fitm-c0s1" ∧
    afl_server.previous_state_path = "fitm-c1s0" ∧
    fuzzGuard afl_server = true ∧
    Effect.spawnAflFuzz "fitm-c0s1" 1 ∈
      (resultState (processNode afl_server [] defaultSched)).world.trace := by
  decide

/-- C5, amended: the Fuzz phase is skipped only for a node whose
previous-state path is empty AND whose state path is `fitm-c0s1`; the
reference pre-seeded server root `fitm-c0s1` does not satisfy this (its
previous-state path is `fitm-c1s0`), so the Fuzz phase runs on it — no
node of the reference setup ever skips the Fuzz phase. -/
theorem C5_fuzz_guard_amended (node : AFLRun) :
    (fuzzGuard node = false ↔
      node.previous_state_path = "" ∧ node.state_path = "fitm-c0s1") ∧
    fuzzGuard afl_server = true ∧ fuzzGuard afl_client = true := by
  refine ⟨?_, by decide, by decide⟩
  simp [fuzzGuard]

/-! ## Claim C2: re-enqueueing of the processed node -/

/-- C2, amended: the processed node is re-enqueued once per consolidated
coverage-map file (the `push_back` sits inside the per-file loop), not
once per pass: a pass over zero map files leaves the dedup set and the
queue unchanged and does NOT re-enqueue (or reclaim) the node, and a
pass over one already-known map file pushes the node (if it is not
`fitm-c0s1`) exactly once while leaving the dedup set unchanged. -/
theorem C2_requeue_per_map_file :
    (∀ (afl_current : AFLRun) (s s' : SchedState),
        processNode afl_current [] s = .ok s' →
        s'.queue = s.queue ∧ s'.client_maps = s.client_maps) ∧
    (∀ (afl_current : AFLRun) (s : SchedState) (entry : String × String)
        (s' : SchedState),
        entry.2 ∈ s.client_maps → afl_current.state_path ≠ "fitm-c0s1" →
        processNode afl_current [entry] s = .ok s' →
        s'.queue = s.queue ++ [afl_current] ∧
        s'.client_maps = s.client_maps) := by
  constructor
  · intro a s s' hok
    simp only [processNode] at hok
    split at hok
    · exact absurd hok (by simp)
    · simp only [consolidateAll, List.foldlM, pure, Except.pure,
        Except.ok.injEq] at hok
      rw [← hok]
      exact ⟨rfl, rfl⟩
  · intro a s e s' hin hc0 hok
    simp only [processNode] at hok
    split at hok
    · exact absurd hok (by simp)
    next w1 hw1 =>
    rw [consolidateAll, List.foldlM_cons] at hok
    cases hstep : consolidateMapEntry a { s with world := w1 } e with
    | error msg =>
      rw [hstep] at hok
      exact absurd hok (by simp [Bind.bind, Except.bind])
    | ok s1 =>
      rw [hstep] at hok
      have h1 : s1 = s' := by
        simpa [Bind.bind, Except.bind, List.foldlM, pure, Except.pure] using hok
      subst h1
      rcases consolidateMapEntry_ok hstep with ⟨_, hs⟩ |
        ⟨hm, _, _⟩ | ⟨hm, _, _⟩
      · subst hs
        rw [requeueCheck_queue, requeueCheck_maps]
        simp [hc0]
      · exact absurd hin hm
      · exact absurd hin hm

/-- C2, counterexample node: an ordinary second-generation client state
whose parent is the server root. -/
def c2Node : AFLRun := ⟨"fitm-c2s1", "test/pseudoclient", "fitm-c0s1", 1, false⟩

/-- C2, counterexample scheduler state: empty queue, one already-known
signature in the dedup set, saved trees for the node and its parent. -/
def c2State : SchedState :=
  ⟨{"sigA"}, (2, 1), [],
   ⟨⟨[["active-state"], ["saved-states"], ["saved-states", "fitm-c2s1"],
      ["saved-states", "fitm-c0s1"]], []⟩, []⟩⟩

/-- C2, counterexample: a pass of the loop over `c2Node` that produced
ZERO coverage-map files succeeds, leaves the dedup set and the queue
unchanged — and in particular does NOT push the processed node (not the
permanent root) back onto the queue, nor reclaim its working tree
(`active-state/fitm-c2s1`, just restored by the Fuzz phase, is still
there). -/
theorem C2_counterexample :
    c2Node.state_path ≠ "fitm-c0s1" ∧
    okE (processNode c2Node [] c2State) = true ∧
    (resultState (processNode c2Node [] c2State)).queue = [] ∧
    (resultState (processNode c2Node [] c2State)).client_maps =
      c2State.client_maps ∧
    (resultState (processNode c2Node [] c2State)).world.fs.isDir
      ["active-state", "fitm-c2s1"] = true := by
  decide

/-- C2, witness for the amended theorem: both conjuncts applied at
concrete inputs — the zero-file pass over `c2Node`, and a one-file pass
whose signature `sigA` is already in the dedup set. -/
theorem C2_requeue_per_map_file_witness :
    ((resultState (processNode c2Node [] c2State)).queue = c2State.queue ∧
     (resultState (processNode c2Node [] c2State)).client_maps =
       c2State.client_maps) ∧
    ((resultState (processNode c2Node [("m1", "sigA")] c2State)).queue =
       c2State.queue ++ [c2Node] ∧
     (resultState (processNode c2Node [("m1", "sigA")] c2State)).client_maps =
       c2State.client_maps) := by
  constructor
  · exact C2_requeue_per_map_file.1 c2Node c2State
      (resultState (processNode c2Node [] c2State)) (by decide)
  · exact C2_requeue_per_map_file.2 c2Node c2State ("m1", "sigA")
      (resultState (processNode c2Node [("m1", "sigA")] c2State))
      (by decide) (by decide) (by decide)

/-! ## Claim C6: the empty-suffix rm wipes the whole working area -/

/-- C6: when the processed node is parentless (empty
`previous_state_path`) and the signature is novel, the consolidation
step's reclaim of the parent runs the `rm` helper with the empty name
suffix — the spawned command path is the bare working-area root
`./active-state/`, which parses to `["active-state"]` — so after the
step NOTHING under the working area exists any more: every state's
working tree is deleted, not just one state's directory. -/
theorem C6_parentless_reclaim_wipes_working_area
    (afl_current : AFLRun) (s : SchedState) (entry : String × String)
    (s' : SchedState)
    (hprev : afl_current.previous_state_path = "")
    (hnovel : entry.2 ∉ s.client_maps)
    (hok : consolidateMapEntry afl_current s entry = .ok s') :
    rmCommandPath "" = "./active-state/" ∧
    parsePath (rmCommandPath "") = ["active-state"] ∧
    Effect.rmCmd "" ∈ s'.world.trace ∧
    ∀ p : FPath, isPre ["active-state"] p = true →
      s'.world.fs.pathPresent p = false := by
  rcases consolidateMapEntry_ok hok with ⟨hm, _⟩ |
    ⟨_, _, tmp, rest, fs1, hq, hcp, hs⟩ | ⟨_, hp, _⟩
  · exact absurd hm hnovel
  · subst hs
    refine ⟨rfl, by decide, ?_, ?_⟩
    · rw [requeueCheck_world, hprev, rm_trace]
      exact List.mem_cons_self _ _
    · intro p hp2
      rw [requeueCheck_world, hprev]
      have hroot : ("active-state" :: parsePath "") = ["active-state"] := by decide
      show ((rm (rm ⟨fs1, s.world.trace⟩ afl_current.state_path) "").fs.pathPresent p)
        = false
      rw [rm_fs, hroot]
      exact deleteUnder_kills hp2
  · exact absurd hprev hp

/-- C6, witness world: the client root's working tree holds the
candidate `f1`, the server root's saved tree is ready to receive it, and
a bystander state `fitm-c7s7` also has a working tree (to witness that
the wipe hits EVERY state, not only the processed one). -/
def c6State : SchedState :=
  ⟨∅, (1, 0), [afl_server],
   ⟨⟨[["active-state"], ["saved-states"],
      ["active-state", "fitm-c1s0"], ["active-state", "fitm-c1s0", "fd"],
      ["active-state", "fitm-c7s7"],
      ["saved-states", "fitm-c0s1"], ["saved-states", "fitm-c0s1", "in"]],
     [(["active-state", "fitm-c1s0", "fd", "f1"], "PAYLOAD")]⟩, []⟩⟩

/-- C6, witness: the theorem applied to the parentless client root with
a novel signature; afterwards the bystander `fitm-c7s7` working tree and
the whole working-area root are gone. -/
theorem C6_parentless_reclaim_wipes_working_area_witness :
    afl_client.previous_state_path = "" ∧
    Effect.rmCmd "" ∈
      (resultState (consolidateMapEntry afl_client c6State ("f1", "mapA"))).world.trace ∧
    (resultState (consolidateMapEntry afl_client c6State ("f1", "mapA"))).world.fs.pathPresent
      ["active-state", "fitm-c7s7"] = false ∧
    (resultState (consolidateMapEntry afl_client c6State ("f1", "mapA"))).world.fs.pathPresent
      ["active-state"] = false := by
  have h := C6_parentless_reclaim_wipes_working_area afl_client c6State
    ("f1", "mapA")
    (resultState (consolidateMapEntry afl_client c6State ("f1", "mapA")))
    (by decide) (by decide) (by decide)
  exact ⟨by decide, h.2.2.1, h.2.2.2 _ (by decide), h.2.2.2 _ (by decide)⟩

/-! ## Claim C7: child construction -/

/-- C7: a successful `create_new_run` on a parent node returns a child
whose role flag is flipped, whose target binary is the counterpart
program, whose previous-state path is the parent's state path and whose
name renders the allocated id; the checkpoint-from-seed phase was
spawned with the candidate (copied into the child's input corpus) as
seed, and the child's tree was committed: it exists under `saved-states`
and no longer under `active-state`, with the candidate's bytes sitting
in its committed input corpus. -/
theorem C7_create_new_run
    (self : AFLRun) (ns : Nat × Nat) (input : String) (timeout : Nat)
    (w : World) (child : AFLRun) (w' : World)
    (hok : self.create_new_run ns input timeout w = .ok (child, w')) :
    child.server = !self.server ∧
    child.target_bin =
      (if self.server then "test/pseudoclient" else "test/pseudoserver") ∧
    child.previous_state_path = self.state_path ∧
    child.state_path = renderId ns ∧
    child.timeout = timeout ∧
    Effect.spawnRestoreSnapshot (renderId ns)
        ["active-state", renderId ns, "in", input] ∈ w'.trace ∧
    Effect.mvDirCmd ["active-state", renderId ns]
        ["saved-states", renderId ns] ∈ w'.trace ∧
    w'.fs.isDir ["saved-states", renderId ns] = true ∧
    w'.fs.isDir ["active-state", renderId ns] = false ∧
    (∃ c, w.fs.readFile ["active-state", self.state_path, "fd", input] = some c ∧
          w'.fs.readFile ["saved-states", renderId ns, "in", input] = some c) := by
  have hchild := create_new_run_ok_child hok
  subst hchild
  simp only [AFLRun.create_new_run] at hok
  split at hok
  · exact absurd hok (by simp)
  next afl w1 hnew =>
  split at hok
  · exact absurd hok (by simp)
  next fs2 hcp =>
  split at hok
  · exact absurd hok (by simp)
  next w3 hsnap =>
  have hpair := ((Except.ok.injEq _ _).mp hok)
  have hafl := congrArg Prod.fst hpair
  have hw3 := congrArg Prod.snd hpair
  dsimp only at hafl hw3
  subst hw3
  subst hafl
  obtain ⟨htr1, ⟨ds, hdirs⟩, hfilesd⟩ := AFLRun_new_ok_world hnew
  dsimp only at htr1 hdirs hfilesd
  obtain ⟨c, hrd, hfs2⟩ := copyFile_ok hcp
  subst hfs2
  obtain ⟨hseed, hw'eq⟩ := snapshot_run_ok hsnap
  dsimp only at hw'eq
  subst hw'eq
  refine ⟨rfl, rfl, rfl, rfl, rfl, ?_, ?_, ?_, ?_, ?_⟩
  · exact List.mem_cons_of_mem _ (List.mem_cons_self _ _)
  · exact List.mem_cons_self _ _
  · show elemF (List.map (reloc ["active-state", renderId ns] ["saved-states", renderId ns])
      w1.fs.dirs) ["saved-states", renderId ns] = true
    have hbase : elemF w1.fs.dirs ["active-state", renderId ns] = true := by
      rw [hdirs]; simp [elemF]
    have hmem := @elemF_map_of_mem
      (reloc ["active-state", renderId ns] ["saved-states", renderId ns])
      w1.fs.dirs ["active-state", renderId ns] hbase
    have hrel : reloc ["active-state", renderId ns] ["saved-states", renderId ns]
        ["active-state", renderId ns] = ["saved-states", renderId ns] := by
      simp [reloc, isPre_refl]
    rw [hrel] at hmem
    exact hmem
  · show elemF (List.map (reloc ["active-state", renderId ns] ["saved-states", renderId ns])
      w1.fs.dirs) ["active-state", renderId ns] = false
    exact elemF_map_ne
      (reloc_ne_src (isPre_savedStates_activeState _ _)) w1.fs.dirs
  · refine ⟨c, ?_, ?_⟩
    · rcases hfilesd with hF | hF
      · unfold FS.readFile at hrd ⊢
        rw [← hF]
        exact hrd
      · unfold FS.readFile at hrd ⊢
        rw [hF, lookupF_cons_ne (by simp)] at hrd
        exact hrd
    · show lookupF (List.map
          (fun e =>
            (reloc ["active-state", renderId ns] ["saved-states", renderId ns] e.1, e.2))
          ((["active-state", renderId ns, "stderr"], "") ::
           (["active-state", renderId ns, "stdout"], "") ::
           (["active-state", renderId ns, "in", input], c) :: w1.fs.files))
        ["saved-states", renderId ns, "in", input] = some c
      simp [lookupF, reloc, isPre]

/-- C7, witness world: the parent `fitm-c1s0`'s working tree holds the
candidate `cand`. -/
def c7World : World :=
  ⟨⟨[["active-state"], ["saved-states"],
     ["active-state", "fitm-c1s0"], ["active-state", "fitm-c1s0", "fd"]],
    [(["active-state", "fitm-c1s0", "fd", "cand"], "DATA")]⟩, []⟩

/-- C7, witness child: role flipped to server, counterpart binary,
lineage pointing at the parent. -/
def c7Child : AFLRun := ⟨"fitm-c1s1", "test/pseudoserver", "fitm-c1s0", 1, true⟩

/-- C7, witness committed world: the child's tree committed under
`saved-states/fitm-c1s1` with the candidate in its corpus. -/
def c7CommittedWorld : World :=
  ⟨⟨[["saved-states", "fitm-c1s1", "snapshot"], ["saved-states", "fitm-c1s1", "fd"],
     ["saved-states", "fitm-c1s1", "out", "maps"], ["saved-states", "fitm-c1s1", "out"],
     ["saved-states", "fitm-c1s1", "in"], ["saved-states", "fitm-c1s1"],
     ["active-state"], ["saved-states"],
     ["active-state", "fitm-c1s0"], ["active-state", "fitm-c1s0", "fd"]],
    [(["saved-states", "fitm-c1s1", "stderr"], ""),
     (["saved-states", "fitm-c1s1", "stdout"], ""),
     (["saved-states", "fitm-c1s1", "in", "cand"], "DATA"),
     (["saved-states", "fitm-c1s1", "out", ".cur_input"], ""),
     (["active-state", "fitm-c1s0", "fd", "cand"], "DATA")]⟩,
   [Effect.mvDirCmd ["active-state", "fitm-c1s1"] ["saved-states", "fitm-c1s1"],
    Effect.spawnRestoreSnapshot "fitm-c1s1" ["active-state", "fitm-c1s1", "in", "cand"]]⟩

/-- C7, witness: `create_new_run` on the client root with allocated id
`(1, 1)` and candidate `cand` evaluates to the committed child, and the
theorem's conclusions hold there. -/
theorem C7_create_new_run_witness :
    AFLRun.create_new_run afl_client (1, 1) "cand" 1 c7World =
      .ok (c7Child, c7CommittedWorld) ∧
    c7Child.server = !afl_client.server ∧
    c7Child.previous_state_path = afl_client.state_path ∧
    c7Child.state_path = renderId (1, 1) ∧
    c7CommittedWorld.fs.isDir ["saved-states", renderId (1, 1)] = true ∧
    c7CommittedWorld.fs.isDir ["active-state", renderId (1, 1)] = false ∧
    c7CommittedWorld.fs.readFile ["saved-states", renderId (1, 1), "in", "cand"] =
      some "DATA" := by
  have hok : AFLRun.create_new_run afl_client (1, 1) "cand" 1 c7World =
      .ok (c7Child, c7CommittedWorld) := by decide
  have h := C7_create_new_run afl_client (1, 1) "cand" 1 c7World c7Child
    c7CommittedWorld hok
  obtain ⟨h1, _, h3, h4, _, _, _, h8, h9, ⟨c, hrd, hdst⟩⟩ := h
  have hc : c = "DATA" := by
    have h2 : (some c : Option String) = some "DATA" := by
      rw [← hrd]; decide
    exact Option.some.inj h2
  rw [hc] at hdst
  exact ⟨hok, h1, h3, h4, h8, h9, hdst⟩

/-! ## Claim C8: ids come from the shared global cursor -/

/-- C8: a novel signature advances the shared cursor by
`next_state_path cur_state node.server` — a function of the GLOBAL
cursor and the node's role flag only, never of the node's own id — the
cursor is updated to the allocated id (one counter increment, i.e. the
counter sum grows by exactly one per accepted signature), and the child
pushed for a parented node carries exactly the rendered allocated id and
the parent as lineage pointer; a duplicate signature leaves the cursor
untouched.  Along a whole consolidation pass the counter sum grows by
exactly the number of freshly accepted signatures. -/
theorem C8_global_cursor_allocation :
    (∀ (afl_current : AFLRun) (s : SchedState) (entry : String × String)
        (s' : SchedState),
        consolidateMapEntry afl_current s entry = .ok s' →
        (entry.2 ∈ s.client_maps → s'.cur_state = s.cur_state) ∧
        (entry.2 ∉ s.client_maps →
          s'.cur_state = next_state_path s.cur_state afl_current.server ∧
          clientGeneration s'.cur_state + serverGeneration s'.cur_state =
            clientGeneration s.cur_state + serverGeneration s.cur_state + 1 ∧
          (afl_current.previous_state_path ≠ "" →
            ∃ next_run : AFLRun,
              next_run.state_path =
                renderId (next_state_path s.cur_state afl_current.server) ∧
              next_run.previous_state_path = afl_current.state_path ∧
              (s'.queue = s.queue ++ [next_run] ∨
               s'.queue = s.queue ++ [next_run, afl_current])))) ∧
    (∀ (afl_current : AFLRun) (entries : List (String × String))
        (s s' : SchedState),
        consolidateAll afl_current entries s = .ok s' →
        clientGeneration s'.cur_state + serverGeneration s'.cur_state +
            s.client_maps.card =
          clientGeneration s.cur_state + serverGeneration s.cur_state +
            s'.client_maps.card) := by
  constructor
  · intro a s e s' hok
    constructor
    · intro hin
      rcases consolidate_step_maps hok with ⟨_, _, hc⟩ | ⟨hm, _, _⟩
      · exact hc
      · exact absurd hin hm
    · intro hnovel
      rcases consolidateMapEntry_ok hok with ⟨hm, _⟩ |
        ⟨hm, hp, tmp, rest, fs1, hq, hcp, hs⟩ |
        ⟨hm, hp, next_run, wc, hcr, hs⟩
      · exact absurd hm hnovel
      · subst hs
        refine ⟨by rw [requeueCheck_cursor], ?_, fun hne => absurd hp hne⟩
        rw [requeueCheck_cursor]
        cases a.server <;>
          simp [next_state_path, clientGeneration, serverGeneration] <;> omega
      · subst hs
        have hchild := create_new_run_ok_child hcr
        refine ⟨by rw [requeueCheck_cursor], ?_, ?_⟩
        · rw [requeueCheck_cursor]
          cases a.server <;>
            simp [next_state_path, clientGeneration, serverGeneration] <;> omega
        · intro _
          refine ⟨next_run, by rw [hchild], by rw [hchild], ?_⟩
          rw [requeueCheck_queue]
          by_cases hc : a.state_path = "fitm-c0s1"
          · left; simp [hc]
          · right; simp [hc]
  · exact fun a entries s s' h => consolidateAll_sum a entries s s' h

/-- C8, witness world: the server root with its candidate `f1` staged in
its working `fd` directory; cursor at `(1, 1)`. -/
def c8State : SchedState :=
  ⟨∅, (1, 1), [],
   ⟨⟨[["active-state"], ["saved-states"],
      ["active-state", "fitm-c0s1"], ["active-state", "fitm-c0s1", "fd"]],
     [(["active-state", "fitm-c0s1", "fd", "f1"], "DATA8")]⟩, []⟩⟩

/-- C8, witness: applying the theorem to a novel signature consolidated
on the server root advances the cursor from `(1, 1)` to
`next_state_path (1, 1) true = (2, 1)` and grows the counter sum by
one. -/
theorem C8_global_cursor_allocation_witness :
    (resultState (consolidateMapEntry afl_server c8State ("f1", "map8"))).cur_state =
      next_state_path c8State.cur_state afl_server.server ∧
    clientGeneration
        (resultState (consolidateMapEntry afl_server c8State ("f1", "map8"))).cur_state +
      serverGeneration
        (resultState (consolidateMapEntry afl_server c8State ("f1", "map8"))).cur_state =
      clientGeneration c8State.cur_state + serverGeneration c8State.cur_state + 1 := by
  have h := (C8_global_cursor_allocation.1 afl_server c8State ("f1", "map8")
    (resultState (consolidateMapEntry afl_server c8State ("f1", "map8")))
    (by decide)).2 (by decide)
  exact ⟨h.1, h.2.1⟩

/-! ## Claim C9: parentless novelty seeds the front-of-queue sibling -/

/-- C9: when the processed node is parentless and the signature is
novel, no child node is created — the step pops the front of the queue
(the pre-seeded counterpart root), copies the candidate's bytes from the
node's working `fd` directory into that sibling's committed input corpus
`saved-states/{sibling}/in/`, and pushes the sibling back onto the FRONT
of the queue (the only other queue change is the per-file re-enqueue of
the processed node itself at the back). -/
theorem C9_parentless_novel_seeds_front_sibling
    (afl_current : AFLRun) (s : SchedState) (entry : String × String)
    (s' : SchedState) (tmp : AFLRun) (rest : List AFLRun)
    (hprev : afl_current.previous_state_path = "")
    (hnovel : entry.2 ∉ s.client_maps)
    (hq : s.queue = tmp :: rest)
    (hok : consolidateMapEntry afl_current s entry = .ok s') :
    (∃ c, s.world.fs.readFile
            ["active-state", afl_current.state_path, "fd", entry.1] = some c ∧
          s'.world.fs.readFile
            ["saved-states", tmp.state_path, "in", entry.1] = some c) ∧
    s'.queue = tmp ::
      (rest ++ (if afl_current.state_path = "fitm-c0s1" then [] else [afl_current])) ∧
    s'.queue.head? = some tmp := by
  rcases consolidateMapEntry_ok hok with ⟨hm, _⟩ |
    ⟨_, _, tmp2, rest2, fs1, hq2, hcp, hs⟩ | ⟨_, hp, _⟩
  · exact absurd hm hnovel
  · rw [hq] at hq2
    injection hq2 with h1 h2
    subst h1; subst h2; subst hs
    obtain ⟨c, hrd, hfs1⟩ := copyFile_ok hcp
    refine ⟨⟨c, hrd, ?_⟩, ?_, ?_⟩
    · rw [requeueCheck_world, hprev, rm_fs, rm_fs,
        deleteUnder_readFile (isPre_activeState_savedStates _ _),
        deleteUnder_readFile (isPre_activeState_savedStates _ _),
        hfs1, readFile_setFile_same]
    · rw [requeueCheck_queue]; simp
    · rw [requeueCheck_queue]; simp
  · exact absurd hprev hp

/-- C9, witness world: the parentless client root with candidate `f9`,
and the server root sitting at the front of the queue. -/
def c9State : SchedState :=
  ⟨∅, (1, 0), [afl_server],
   ⟨⟨[["active-state"], ["saved-states"],
      ["active-state", "fitm-c1s0"], ["active-state", "fitm-c1s0", "fd"],
      ["saved-states", "fitm-c0s1"], ["saved-states", "fitm-c0s1", "in"]],
     [(["active-state", "fitm-c1s0", "fd", "f9"], "PAYLOAD9")]⟩, []⟩⟩

/-- C9, witness: applying the theorem to the client root consolidating a
novel signature with `afl_server` at the queue front — the candidate's
bytes land in `saved-states/fitm-c0s1/in/f9` and `afl_server` is back at
the front. -/
theorem C9_parentless_novel_seeds_front_sibling_witness :
    (resultState (consolidateMapEntry afl_client c9State ("f9", "map9"))).queue =
      afl_server :: ([] ++
        (if afl_client.state_path = "fitm-c0s1" then [] else [afl_client])) ∧
    (resultState (consolidateMapEntry afl_client c9State ("f9", "map9"))).queue.head? =
      some afl_server ∧
    (resultState (consolidateMapEntry afl_client c9State ("f9", "map9"))).world.fs.readFile
      ["saved-states", "fitm-c0s1", "in", "f9"] = some "PAYLOAD9" := by
  have h := C9_parentless_novel_seeds_front_sibling afl_client c9State
    ("f9", "map9")
    (resultState (consolidateMapEntry afl_client c9State ("f9", "map9")))
    afl_server [] (by decide) (by decide) (by decide) (by decide)
  obtain ⟨⟨c, hrd, hdst⟩, hqq, hhd⟩ := h
  have hc : c = "PAYLOAD9" := by
    have h2 : (some c : Option String) = some "PAYLOAD9" := by
      rw [← hrd]; decide
    exact Option.some.inj h2
  rw [hc] at hdst
  exact ⟨hqq, hhd, by simpa [afl_server] using hdst⟩

/-! ## Claim C10: the coverage dedup set -/

/-- C10: along any successful consolidation step the dedup set only
grows; consolidating a signature already in the set leaves the set (and
hence its size) unchanged, while the first consolidation of a fresh
signature inserts it (size + 1) — so only the first occurrence is
treated as novel, and check-and-insert is idempotent.  Along a whole
pass of the scheduler loop the set of a state is a subset of the
resulting set — nothing is ever removed or rolled back. -/
theorem C10_dedup_monotone_idempotent :
    (∀ (afl_current : AFLRun) (s : SchedState) (entry : String × String)
        (s' : SchedState),
        consolidateMapEntry afl_current s entry = .ok s' →
        s.client_maps ⊆ s'.client_maps ∧
        (entry.2 ∈ s.client_maps → s'.client_maps = s.client_maps ∧
          s'.client_maps.card = s.client_maps.card) ∧
        (entry.2 ∉ s.client_maps →
          s'.client_maps = insert entry.2 s.client_maps ∧
          s'.client_maps.card = s.client_maps.card + 1)) ∧
    (∀ (afl_current : AFLRun) (entries : List (String × String))
        (s s' : SchedState),
        processNode afl_current entries s = .ok s' →
        s.client_maps ⊆ s'.client_maps) := by
  constructor
  · intro a s e s' hok
    rcases consolidate_step_maps hok with ⟨hm, hmm, _⟩ | ⟨hm, hmm, _⟩
    · exact ⟨by rw [hmm], fun _ => ⟨hmm, by rw [hmm]⟩,
        fun hn => absurd hm hn⟩
    · refine ⟨?_, fun hin => absurd hin hm, fun _ => ⟨hmm, ?_⟩⟩
      · rw [hmm]; exact Finset.subset_insert _ _
      · rw [hmm, Finset.card_insert_of_not_mem hm]
  · intro a entries s s' hok
    simp only [processNode] at hok
    split at hok
    · exact absurd hok (by simp)
    · have h2 := consolidateAll_maps_mono _ _ _ _ hok
      exact h2

/-- C10, witness world: one known signature `sigK` in the dedup set and
the client root's candidate staged. -/
def c10State : SchedState :=
  ⟨{"sigK"}, (1, 0), [afl_server],
   ⟨⟨[["active-state"], ["saved-states"],
      ["active-state", "fitm-c1s0"], ["active-state", "fitm-c1s0", "fd"],
      ["saved-states", "fitm-c0s1"], ["saved-states", "fitm-c0s1", "in"]],
     [(["active-state", "fitm-c1s0", "fd", "g1"], "Q")]⟩, []⟩⟩

/-- C10, witness: re-consolidating the known `sigK` leaves the set and
its size unchanged; consolidating the fresh `sigN` inserts it and grows
the size to two. -/
theorem C10_dedup_monotone_idempotent_witness :
    ((resultState (consolidateMapEntry afl_client c10State ("g1", "sigK"))).client_maps =
        c10State.client_maps ∧
      (resultState (consolidateMapEntry afl_client c10State ("g1", "sigK"))).client_maps.card =
        c10State.client_maps.card) ∧
    ((resultState (consolidateMapEntry afl_client c10State ("g1", "sigN"))).client_maps =
        insert "sigN" c10State.client_maps ∧
      (resultState (consolidateMapEntry afl_client c10State ("g1", "sigN"))).client_maps.card =
        c10State.client_maps.card + 1) := by
  constructor
  · exact ((C10_dedup_monotone_idempotent.1 afl_client c10State ("g1", "sigK")
      (resultState (consolidateMapEntry afl_client c10State ("g1", "sigK")))
      (by decide)).2.1) (by decide)
  · exact ((C10_dedup_monotone_idempotent.1 afl_client c10State ("g1", "sigN")
      (resultState (consolidateMapEntry afl_client c10State ("g1", "sigN")))
      (by decide)).2.2) (by decide)

end FitM
